import Mathlib

/-!
The on-screen keyboard `jkeyboard` of `lib/js/jkeyboard.js`.

A shallow embedding of the jQuery plugin `jkeyboard` and the properties of its
keyboard state machine: the text insertion of `type`, the one-shot shift and the
capslock latch, the layout cycler, the rebuild of the key grid and the two
trimming commands `backspace` and `del`.

Modelling conventions:

* A JavaScript string is the list of its UTF-16 code units.  `Char` is the carrier
  of a code unit; every character of the layout catalog lies in the Basic
  Multilingual Plane and is one unit.  Property names and key tokens are written
  as Lean strings and read as code units through `String.toList`.
* The module-level variables `shift`, `capslock`, `layout`, `layout_id` form the
  record `Vars`; what belongs to one `Plugin` instance (its settings, the content
  of its host element, its target field) forms the record `Plugin`.
* A method that can throw returns `Except State State`: JavaScript keeps the
  assignments made before a `TypeError`, so the error carries the state at the
  moment of the throw.
* `String.prototype.toUpperCase` is a parameter `upper` of the letter handler.
* `events()` binds the handlers to the keys that `createKeyboard` has just
  created; a handler is modelled by the function of its body, and a state holds
  no handler table.
* The wrapper `$.fn.jkeyboard` is modelled on one host element, which either
  holds an instance or not; a `Page` holds two instances over one copy of the
  module-level variables.
-/

namespace JKeyboard

/-! ## JavaScript strings -/

/-- A JavaScript string: the sequence of its UTF-16 code units. -/
abbrev JSString := List Char

/-- The value of `String.prototype.substring(start, end)`: both arguments are clamped
to `[0, length]` and swapped when `start > end`. -/
def substring (s : JSString) (start stop : Int) : JSString :=
  let len : Int := s.length
  let finalStart := min (max start 0) len
  let finalEnd := min (max stop 0) len
  let lo := min finalStart finalEnd
  let hi := max finalStart finalEnd
  (s.drop lo.toNat).take (hi - lo).toNat

/-- The value of `String.prototype.substr(start, length)`: a negative `start` counts
from the end, and a length that is not positive gives the empty string. -/
def substr (s : JSString) (start length : Int) : JSString :=
  let size : Int := s.length
  let intStart := if start < 0 then max (size + start) 0 else min start size
  let resultLength := min (max length 0) (size - intStart)
  if resultLength ≤ 0 then [] else (s.drop intStart.toNat).take resultLength.toNat

/-! ## The target text field -/

/-- The text control `this.settings.input`: its value and its selection. -/
structure TextField where
  value : JSString
  selectionStart : Nat
  selectionEnd : Nat
deriving DecidableEq, Repr

/-- The host's `input.val(v)`: assigning a value that differs from the current one
moves the caret to the end of the new value and drops the selection. -/
def TextField.val (f : TextField) (v : JSString) : TextField :=
  if v = f.value then f
  else { value := v, selectionStart := v.length, selectionEnd := v.length }

/-- The host's `setSelectionRange(start, end)`: both bounds are clamped to the length
of the value, and a start beyond the end is set to the end. -/
def TextField.setSelectionRange (f : TextField) (start stop : Nat) : TextField :=
  let e := min stop f.value.length
  let s := min (min start f.value.length) e
  { f with selectionStart := s, selectionEnd := e }

/-- Method `insertToString(start, end, string, insert_string)`. -/
def insertToString (start stop : Nat) (string insert_string : JSString) : JSString :=
  substring string 0 start ++ insert_string ++ substring string stop string.length

/-- The part of `type(key)` that edits the field (the statements before
`input.trigger("focus")`). -/
def typeInto (input : TextField) (key : JSString) : TextField :=
  let val := input.value
  let start := input.selectionStart
  let stop := input.selectionEnd
  if start = stop ∧ stop = val.length then
    input.val (val ++ key)
  else
    let new_string := insertToString start stop val key
    let input := input.val new_string
    let start := start + 1
    let stop := start
    input.setSelectionRange start stop

/-- Method `backspace()`, on the field. -/
def backspaceField (input : TextField) : TextField :=
  let val := input.value
  input.val (substr val 0 ((val.length : Int) - 1))

/-- Method `del()`, on the field. -/
def delField (input : TextField) : TextField :=
  let val := input.value
  input.val (substr val 1 val.length)

/-! ## The function-key registry and the layout catalog -/

/-- The commands of the registry, named after the key that carries each. -/
inductive Command where
  | numeric_switch
  | layout_switch
  | character_switch
  | symbol_switch
deriving DecidableEq, Repr

/-- An entry of `function_keys`: the label and the optional command. -/
structure FunctionKey where
  text : String
  command : Option Command
deriving DecidableEq, Repr

/-- The object `function_keys`, as the list of its properties. -/
def function_keys : List (String × FunctionKey) :=
  [ ("backspace", ⟨"&nbsp;", none⟩),
    ("del", ⟨"del", none⟩),
    ("return", ⟨"Enter", none⟩),
    ("shift", ⟨"&nbsp;", none⟩),
    ("space", ⟨"&nbsp;", none⟩),
    ("numeric_switch", ⟨"123", some .numeric_switch⟩),
    ("layout_switch", ⟨"&nbsp;", some .layout_switch⟩),
    ("character_switch", ⟨"ABC", some .character_switch⟩),
    ("symbol_switch", ⟨"#+=", some .symbol_switch⟩) ]

/-- A property value of `layouts`: the array of names `selectable`, or the rows of a
layout. -/
inductive LayoutsValue where
  | names (l : List String)
  | rows (l : List (List String))
deriving DecidableEq, Repr

/-- The array `layouts.selectable`. -/
def selectable : List String := ["azeri", "english", "russian"]

/-- The rows of `layouts.azeri`. -/
def azeri : List (List String) :=
  [ ["đ", "ā", "@", "å", "Δ", "ŧ", "ö", "ɉ", "λ", "ø", "č", "-", ";"],
    ["q", "w", "e", "r", "t", "y", "u", "i", "o", "p", "л", "ф", ":"],
    ["a", "s", "d", "f", "g", "h", "j", "k", "l", "ū", "ŋ", "del"],
    ["z", "x", "c", "v", "b", "n", "m", "?", ",", "!", "layout_switch", "backspace"],
    ["shift", "\x7b", "\x7d", "[", "space", "]", ".", "\x27", "\"", "numeric_switch"] ]

/-- The rows of `layouts.english`. -/
def english : List (List String) :=
  [ ["q", "w", "e", "r", "t", "y", "u", "i", "o", "p"],
    ["a", "s", "d", "f", "g", "h", "j", "k", "l"],
    ["z", "x", "c", "v", "b", "n", "m", "backspace"],
    ["numeric_switch", "layout_switch", "space", "return"] ]

/-- The rows of `layouts.numeric`. -/
def numeric : List (List String) :=
  [ ["1", "2", "3", "4", "5", "6", "7", "8", "9", "0"],
    ["-", "/", ":", ";", "(", ")", "$", "&", "@", "\""],
    ["symbol_switch", ".", ",", "?", "!", "\x27", "backspace"],
    ["character_switch", "layout_switch", "space", "return"] ]

/-- The rows of `layouts.numbers_only`. -/
def numbers_only : List (List String) :=
  [ ["1", "2", "3"],
    ["4", "5", "6"],
    ["7", "8", "9"],
    ["0", "backspace", "return"] ]

/-- The rows of `layouts.symbolic`. -/
def symbolic : List (List String) :=
  [ ["[", "]", "\x7b", "\x7d", "#", "%", "^", "*", "+", "="],
    ["_", "\\", "|", "~", "<", ">"],
    ["numeric_switch", ".", ",", "?", "!", "\x27", "backspace"],
    ["character_switch", "layout_switch", "space", "return"] ]

/-- The object `layouts`, as the list of its properties. -/
def layouts : List (String × LayoutsValue) :=
  [ ("selectable", .names selectable),
    ("azeri", .rows azeri),
    ("english", .rows english),
    ("numeric", .rows numeric),
    ("numbers_only", .rows numbers_only),
    ("symbolic", .rows symbolic) ]

/-- The layouts of the catalog: the properties of `layouts` that hold rows of keys. -/
def catalog : List (String × List (List String)) :=
  layouts.filterMap fun p =>
    match p.2 with
    | .rows r => some (p.1, r)
    | .names _ => none

/-! ## State -/

/-- The module-level variables `shift`, `capslock`, `layout` and `layout_id`. -/
structure Vars where
  shift : Bool
  capslock : Bool
  layout : String
  layout_id : Nat
deriving DecidableEq, Repr

/-- The values the module-level variables are declared with. -/
def Vars.initial : Vars :=
  { shift := false, capslock := false, layout := "english", layout_id := 0 }

/-- A key element `li.jkey`: its classes, its `command` datum and its content. -/
structure Key where
  classes : List String
  command : String
  html : String
deriving DecidableEq, Repr

/-- The element `ul.jkeyboard`: one list of keys for each `li.jline`. -/
abbrev Keyboard := List (List Key)

/-- One `Plugin` instance: `settings.layout`, the target field `settings.input`, and
the content of the host element (`none` while no keyboard has been rendered). -/
structure Plugin where
  settings_layout : String
  input : TextField
  element : Option Keyboard
deriving DecidableEq, Repr

/-- The module-level variables together with the instance a method runs on. -/
structure State where
  vars : Vars
  me : Plugin
deriving DecidableEq, Repr

/-- The state in which an exceptional or normal completion leaves the widget. -/
def after (r : Except State State) : State :=
  match r with
  | .ok s => s
  | .error s => s

/-! ## Methods of `Plugin.prototype` -/

/-- Add a class to an element, as jQuery `addClass` does (no duplicate). -/
def Key.addClass (k : Key) (c : String) : Key :=
  if c ∈ k.classes then k else { k with classes := k.classes ++ [c] }

/-- Remove a class from an element, as jQuery `removeClass` does. -/
def Key.removeClass (k : Key) (c : String) : Key :=
  { k with classes := k.classes.filter (· != c) }

/-- Apply `f` to the keys of the host element that carry the class `c`
(`$(this.element).find("." + c)`). -/
def Plugin.onClass (p : Plugin) (c : String) (f : Key → Key) : Plugin :=
  { p with element := p.element.map fun kb =>
      kb.map fun line => line.map fun k => if c ∈ k.classes then f k else k }

/-- Method `createLine(line)`. -/
def createLine (line : List String) : List Key :=
  line.map fun key =>
    match function_keys.lookup key with
    | some fk => { classes := ["jkey", key], command := key, html := fk.text }
    | none => { classes := ["jkey", "letter"], command := key, html := key }

/-- Method `createKeyboard(layout)`.  The modifiers are cleared first; `forEach` throws
when `layouts[layout]` is undefined, and `createLine` throws on a line that is a
string; only a completed grid replaces the content of the host element. -/
def createKeyboard (layout : String) (s : State) : Except State State :=
  let s := { s with vars := { s.vars with shift := false, capslock := false } }
  match layouts.lookup layout with
  | none => .error s
  | some (.names []) => .ok { s with me := { s.me with element := some [] } }
  | some (.names (_ :: _)) => .error s
  | some (.rows lines) =>
    .ok { s with me := { s.me with element := some (lines.map createLine) } }

/-- Method `init()`; `events()` follows a completed `createKeyboard`. -/
def init (s : State) : Except State State :=
  let s := { s with vars := { s.vars with layout := s.me.settings_layout } }
  createKeyboard s.vars.layout s

/-- Method `toggleShiftOn()`. -/
def toggleShiftOn (s : State) : State :=
  let me := s.me.onClass "letter" (·.addClass "uppercase")
  let me := me.onClass "shift" (·.addClass "active")
  { vars := { s.vars with shift := true }, me := me }

/-- Method `toggleShiftOff()`. -/
def toggleShiftOff (s : State) : State :=
  let me := s.me.onClass "letter" (·.removeClass "uppercase")
  let me := me.onClass "shift" (·.removeClass "active")
  { vars := { s.vars with shift := false }, me := me }

/-- Method `type(key)`. -/
def type (key : JSString) (s : State) : State :=
  let s := { s with me := { s.me with input := typeInto s.me.input key } }
  if s.vars.shift && !s.vars.capslock then toggleShiftOff s else s

/-- Method `backspace()`. -/
def backspace (s : State) : State :=
  { s with me := { s.me with input := backspaceField s.me.input } }

/-- Method `del()`. -/
def del (s : State) : State :=
  { s with me := { s.me with input := delField s.me.input } }

/-- Method `toggleLayout()`: the returned name (`none` for `undefined`) and the
variables after the call. -/
def toggleLayout (v : Vars) : Option String × Vars :=
  let layout_id := if v.layout_id != 0 then v.layout_id else 0
  let plain_layouts := selectable
  let layout_id := layout_id + 1
  let current_id := layout_id % plain_layouts.length
  (plain_layouts[current_id]?, { v with layout_id := layout_id })

/-- The property key a value is converted to in `layouts[l]`. -/
def propertyKey (l : Option String) : String :=
  l.getD "undefined"

/-- The `command` functions of `function_keys`, run with `this` the instance `me`;
`events()` follows a completed `createKeyboard`. -/
def Command.call (c : Command) (s : State) : Except State State :=
  match c with
  | .numeric_switch => createKeyboard "numeric" s
  | .layout_switch =>
    let (l, vars) := toggleLayout s.vars
    createKeyboard (propertyKey l) { s with vars := vars }
  | .character_switch => createKeyboard s.vars.layout s
  | .symbol_switch => createKeyboard "symbolic" s

/-! ## The handlers bound by `events()` -/

/-- Click on a `.letter` key whose text is `text`. -/
def letters_click (upper : JSString → JSString) (text : JSString) (s : State) : State :=
  type (if s.vars.shift || s.vars.capslock then upper text else text) s

/-- Click on the `.space` key. -/
def space_key_click (s : State) : State :=
  type " ".toList s

/-- Click on the `.return` key; the submission of the enclosing form that follows is
outside the state. -/
def return_key_click (s : State) : State :=
  type "\n".toList s

/-- Click on the `.backspace` key. -/
def backspace_key_click (s : State) : State :=
  backspace s

/-- Click on the `.del` key. -/
def del_key_click (s : State) : State :=
  del s

/-- The `click` handler of the `.shift` key. -/
def shift_key_click (s : State) : State :=
  if s.vars.capslock then
    let s := toggleShiftOff s
    { s with vars := { s.vars with capslock := false } }
  else
    toggleShiftOn s

/-- The `dblclick` handler of the `.shift` key. -/
def shift_key_dblclick (s : State) : State :=
  { s with vars := { s.vars with capslock := true } }

/-- A double click on the `.shift` key as the host delivers it: two `click` events,
then `dblclick`. -/
def shift_key_double_click (s : State) : State :=
  shift_key_dblclick (shift_key_click (shift_key_click s))

/-- The `click` handler bound to every function key; `command` is the `command` datum
of the clicked key. -/
def fkeys_click (command : String) (s : State) : Except State State :=
  match function_keys.lookup command with
  | none => .error s
  | some fk =>
    match fk.command with
    | none => .ok s
    | some c => c.call s

/-- The state after a sequence of command activations, each run to its completion. -/
def runCommands (cs : List Command) (s : State) : State :=
  cs.foldl (fun s c => after (c.call s)) s

/-- The state after `n` calls of `toggleLayout()`. -/
def toggleLayoutTimes (n : Nat) (v : Vars) : Vars :=
  match n with
  | 0 => v
  | n + 1 => (toggleLayout (toggleLayoutTimes n v)).2

/-- The number of UTF-16 code units of a string written as a Lean string (the
JavaScript `length` of a key token). -/
def jsLength (s : String) : Nat :=
  (s.toList.map fun c => if c.toNat < 0x10000 then 1 else 2).sum

/-- An uppercase mapping of the ASCII letters, used to evaluate the letter handler on
concrete keys. -/
def asciiUpper (t : JSString) : JSString :=
  t.map Char.toUpper

/-- The state after clicking, in order, the `.letter` keys whose texts are `texts`. -/
def typeLetters (upper : JSString → JSString) (texts : List JSString) (s : State) : State :=
  texts.foldl (fun s text => letters_click upper text s) s

/-- The name returned by the `k`-th call of `toggleLayout()`, for `k ≥ 1`. -/
def kthToggleLayout (k : Nat) (v : Vars) : Option String :=
  (toggleLayout (toggleLayoutTimes (k - 1) v)).1

/-- The state at load time, before any construction: the module-level variables as
declared, and a host element without keyboard. -/
def State.fresh (layout : String) (input : TextField) : State :=
  ⟨Vars.initial, ⟨layout, input, none⟩⟩

/-- The state after `n` single clicks on the `.shift` key. -/
def shift_key_clicks (n : Nat) (s : State) : State :=
  match n with
  | 0 => s
  | n + 1 => shift_key_click (shift_key_clicks n s)

/-! ## The plugin wrapper and a page with two instances -/

/-- The property `defaults.layout`. -/
def defaults_layout : String := "english"

/-- The `options` argument of the plugin: an optional `layout`.  The field that
`settings.input` denotes after the merge with `defaults` is passed separately. -/
structure Options where
  layout : Option String
deriving DecidableEq, Repr

/-- A host element as the wrapper sees it: without the datum `"plugin_jkeyboard"`
(only its content), or with the instance stored under that datum. -/
inductive Host where
  | bare (content : Option Keyboard)
  | bound (me : Plugin)
deriving DecidableEq, Repr

/-- The constructor `new Plugin(element, options)`: `settings` is `defaults` overridden
by `options`, then `init()` runs; `content` is the content of `element`. -/
def Plugin.new (options : Options) (input : TextField) (content : Option Keyboard)
    (vars : Vars) : Except State State :=
  init ⟨vars, ⟨options.layout.getD defaults_layout, input, content⟩⟩

/-- The wrapper `$.fn.jkeyboard(options)` on one element of the set: the constructor
runs only when the element holds no instance, and the instance is stored only when
the constructor completes. -/
def jkeyboard (options : Options) (input : TextField) (vars : Vars) (host : Host) :
    Except (Vars × Host) (Vars × Host) :=
  match host with
  | .bound me => .ok (vars, .bound me)
  | .bare content =>
    match Plugin.new options input content vars with
    | .ok s => .ok (s.vars, .bound s.me)
    | .error s => .error (s.vars, .bare s.me.element)

/-- Two instances of the plugin on two host elements of one page: each has its own
record, and both run on the same module-level variables. -/
structure Page where
  vars : Vars
  first : Plugin
  second : Plugin
deriving DecidableEq, Repr

/-- Run a method or handler of the first instance. -/
def Page.onFirst (f : State → State) (p : Page) : Page :=
  let s := f ⟨p.vars, p.first⟩
  { p with vars := s.vars, first := s.me }

/-- Run a method or handler of the second instance. -/
def Page.onSecond (f : State → State) (p : Page) : Page :=
  let s := f ⟨p.vars, p.second⟩
  { p with vars := s.vars, second := s.me }

/-- A page at load time with a first host for the layout `"english"` and a second
host for the layout `"azeri"`, each with its own empty field. -/
def Page.fresh : Page :=
  { vars := Vars.initial,
    first := ⟨"english", ⟨[], 0, 0⟩, none⟩,
    second := ⟨"azeri", ⟨[], 0, 0⟩, none⟩ }

/-- The page after the construction of the first instance. -/
def Page.one : Page :=
  Page.fresh.onFirst fun s => after (init s)

/-- The page after the construction of the first instance and then of the second. -/
def Page.two : Page :=
  Page.one.onSecond fun s => after (init s)

/-! ## Lemmas on strings and on the field -/

theorem substring_zero (s : JSString) (n : Nat) : substring s 0 n = s.take n := by
  unfold substring
  dsimp only
  have h1 : (min (min (max (0 : Int) 0) (s.length : Int))
      (min (max (n : Int) 0) (s.length : Int))).toNat = 0 := by omega
  have h2 : (max (min (max (0 : Int) 0) (s.length : Int))
      (min (max (n : Int) 0) (s.length : Int))
      - min (min (max (0 : Int) 0) (s.length : Int))
      (min (max (n : Int) 0) (s.length : Int))).toNat = min n s.length := by omega
  rw [h1, h2]
  simp [List.take_eq_take]

theorem substring_length (s : JSString) (n : Nat) :
    substring s n s.length = s.drop n := by
  unfold substring
  dsimp only
  have h1 : (min (min (max (n : Int) 0) (s.length : Int))
      (min (max ((s.length : Nat) : Int) 0) (s.length : Int))).toNat = min n s.length := by
    omega
  have h2 : (max (min (max (n : Int) 0) (s.length : Int))
      (min (max ((s.length : Nat) : Int) 0) (s.length : Int))
      - min (min (max (n : Int) 0) (s.length : Int))
      (min (max ((s.length : Nat) : Int) 0) (s.length : Int))).toNat
      = s.length - min n s.length := by omega
  rw [h1, h2]
  rcases Nat.le_total n s.length with h | h
  · rw [Nat.min_eq_left h]
    apply List.take_of_length_le
    simp
  · rw [Nat.min_eq_right h]
    simp [List.drop_eq_nil_of_le h]

theorem insertToString_eq (start stop : Nat) (V T : JSString) :
    insertToString start stop V T = V.take start ++ T ++ V.drop stop := by
  unfold insertToString
  have h := substring_zero V start
  have h2 := substring_length V stop
  simp only [Int.ofNat_eq_coe, Nat.cast_ofNat, Int.Nat.cast_ofNat_Int] at h h2 ⊢
  rw [h2]
  have h0 : substring V 0 (start : Int) = V.take start := by simpa using h
  rw [h0]

theorem val_value (f : TextField) (v : JSString) : (f.val v).value = v := by
  unfold TextField.val
  split
  · next h => exact h.symm
  · rfl

theorem typeInto_value (f : TextField) (T : JSString) :
    (typeInto f T).value
      = f.value.take f.selectionStart ++ T ++ f.value.drop f.selectionEnd := by
  unfold typeInto
  simp only
  split
  · next h =>
    rw [val_value, h.1, h.2]
    simp
  · simp only [TextField.setSelectionRange, val_value, insertToString_eq]

theorem typeInto_selection (f : TextField) (T : JSString)
    (h : ¬ (f.selectionStart = f.selectionEnd ∧ f.selectionEnd = f.value.length)) :
    (typeInto f T).selectionStart
        = min (f.selectionStart + 1) (typeInto f T).value.length ∧
      (typeInto f T).selectionEnd
        = min (f.selectionStart + 1) (typeInto f T).value.length := by
  unfold typeInto
  simp only [if_neg h, TextField.setSelectionRange, val_value]
  simp

theorem substr_dropLast (s : JSString) :
    substr s 0 ((s.length : Int) - 1) = s.take (s.length - 1) := by
  unfold substr
  dsimp only
  have h0 : ¬ ((0 : Int) < 0) := by omega
  rw [if_neg h0]
  have h1 : (min (0 : Int) (s.length : Int)).toNat = 0 := by omega
  have h2 : (min (max ((s.length : Int) - 1) 0)
      ((s.length : Int) - min (0 : Int) (s.length : Int))).toNat = s.length - 1 := by omega
  rw [h1, h2]
  split
  · next h =>
    have h3 : s.length - 1 = 0 := by omega
    rw [h3]
    rfl
  · rfl

theorem substr_tail (s : JSString) : substr s 1 s.length = s.drop 1 := by
  unfold substr
  dsimp only
  have h0 : ¬ ((1 : Int) < 0) := by omega
  rw [if_neg h0]
  have h1 : (min (1 : Int) (s.length : Int)).toNat = min 1 s.length := by omega
  have h2 : (min (max ((s.length : Nat) : Int) 0)
      ((s.length : Int) - min (1 : Int) (s.length : Int))).toNat = s.length - min 1 s.length := by
    omega
  rw [h1, h2]
  split
  · next h =>
    have h3 : s.length ≤ 1 := by omega
    exact (List.drop_eq_nil_of_le h3).symm
  · next h =>
    have h3 : min 1 s.length = 1 := by omega
    rw [h3]
    apply List.take_of_length_le
    simp

/-! ## Text insertion -/

/-- C1: for every field value `V`, inserted text `T` and selection
`0 ≤ start ≤ end ≤ length V`, `type(T)` sets the value to
`V[0:start] + T + V[end:]`; with the caret at the end this is `V + T`. -/
theorem type_value_splice (V T : JSString) (start stop : Nat) (vars : Vars)
    (layout : String) (element : Option Keyboard)
    (_hse : start ≤ stop) (_hel : stop ≤ V.length) :
    (type T ⟨vars, ⟨layout, ⟨V, start, stop⟩, element⟩⟩).me.input.value
        = V.take start ++ T ++ V.drop stop ∧
      (start = V.length → stop = V.length →
        (type T ⟨vars, ⟨layout, ⟨V, start, stop⟩, element⟩⟩).me.input.value = V ++ T) := by
  have hv : (type T ⟨vars, ⟨layout, ⟨V, start, stop⟩, element⟩⟩).me.input
      = typeInto ⟨V, start, stop⟩ T := by
    unfold type
    dsimp only
    split <;> simp [toggleShiftOff, Plugin.onClass]
  rw [hv, typeInto_value]
  refine ⟨rfl, ?_⟩
  intro h1 h2
  subst h1
  simp [h2]

/-- C1 at the field `"hello"` with the selection `[1,4]` and the text `"X"`. -/
theorem type_value_splice_witness :
    (type "X".toList ⟨Vars.initial, ⟨"english", ⟨"hello".toList, 1, 4⟩, none⟩⟩).me.input.value
        = "hello".toList.take 1 ++ "X".toList ++ "hello".toList.drop 4 ∧
      (1 = "hello".toList.length → 4 = "hello".toList.length →
        (type "X".toList
          ⟨Vars.initial, ⟨"english", ⟨"hello".toList, 1, 4⟩, none⟩⟩).me.input.value
          = "hello".toList ++ "X".toList) :=
  type_value_splice "hello".toList "X".toList 1 4 Vars.initial "english" none
    (by decide) (by decide)

theorem type_input (T : JSString) (s : State) :
    (type T s).me.input = typeInto s.me.input T := by
  unfold type
  dsimp only
  split <;> simp [toggleShiftOff, Plugin.onClass]

/-- C2 as stated fails: with the value `"hello"`, the selection `[1,4]` and the
two-character text `"XY"` the caret is left at 2, not at `1 + 2`. -/
theorem type_caret_counterexample :
    ¬ ∀ (V T : JSString) (start stop : Nat) (vars : Vars) (layout : String)
        (element : Option Keyboard),
        start ≤ stop → stop ≤ V.length → ¬ (start = stop ∧ stop = V.length) →
        (type T ⟨vars, ⟨layout, ⟨V, start, stop⟩, element⟩⟩).me.input.selectionStart
            = start + T.length ∧
          (type T ⟨vars, ⟨layout, ⟨V, start, stop⟩, element⟩⟩).me.input.selectionEnd
            = start + T.length := by
  intro h
  have h1 := h "hello".toList "XY".toList 1 4 Vars.initial "english" none
    (by decide) (by decide) (by decide)
  revert h1
  decide

/-- C2, amended: for every field value `V`, every inserted text `T` of exactly one
character and every selection `0 ≤ start ≤ end ≤ length V` other than the caret at the
end, `type(T)` leaves the selection collapsed to the caret `start + length T`
(which is `start + 1`). -/
theorem type_caret_single (V T : JSString) (start stop : Nat) (vars : Vars)
    (layout : String) (element : Option Keyboard)
    (hse : start ≤ stop) (hel : stop ≤ V.length)
    (hne : ¬ (start = stop ∧ stop = V.length)) (hT : T.length = 1) :
    (type T ⟨vars, ⟨layout, ⟨V, start, stop⟩, element⟩⟩).me.input.selectionStart
        = start + T.length ∧
      (type T ⟨vars, ⟨layout, ⟨V, start, stop⟩, element⟩⟩).me.input.selectionEnd
        = start + T.length := by
  rw [type_input]
  have hsel := typeInto_selection ⟨V, start, stop⟩ T hne
  have hval := typeInto_value ⟨V, start, stop⟩ T
  have hlen : (typeInto ⟨V, start, stop⟩ T).value.length
      = start + T.length + (V.length - stop) := by
    rw [hval]
    simp only [List.length_append, List.length_take, List.length_drop]
    omega
  dsimp only at hsel
  rw [hlen] at hsel
  rw [hsel.1, hsel.2, hT]
  omega

/-- C2, amended, at the field `"hello"` with the selection `[1,4]` and the text `"X"`:
the caret is left at 2. -/
theorem type_caret_single_witness :
    (type "X".toList
        ⟨Vars.initial, ⟨"english", ⟨"hello".toList, 1, 4⟩, none⟩⟩).me.input.selectionStart
        = 1 + "X".toList.length ∧
      (type "X".toList
        ⟨Vars.initial, ⟨"english", ⟨"hello".toList, 1, 4⟩, none⟩⟩).me.input.selectionEnd
        = 1 + "X".toList.length :=
  type_caret_single "hello".toList "X".toList 1 4 Vars.initial "english" none
    (by decide) (by decide) (by decide) (by decide)

/-! ## The trimming commands -/

/-- C8: `backspace()` sets the value to `V` without its last character, whatever the
caret or selection is; an empty value stays empty, and `"cat"` becomes `"ca"`. -/
theorem backspace_trims_last (V : JSString) (a b a' b' : Nat) (vars : Vars)
    (layout : String) (element : Option Keyboard) :
    (backspace ⟨vars, ⟨layout, ⟨V, a, b⟩, element⟩⟩).me.input.value
        = V.take (V.length - 1) ∧
      (backspace ⟨vars, ⟨layout, ⟨V, a, b⟩, element⟩⟩).me.input.value = V.dropLast ∧
      (backspace ⟨vars, ⟨layout, ⟨V, a, b⟩, element⟩⟩).me.input.value
        = (backspace ⟨vars, ⟨layout, ⟨V, a', b'⟩, element⟩⟩).me.input.value ∧
      (backspace ⟨vars, ⟨layout, ⟨[], a, b⟩, element⟩⟩).me.input.value = [] ∧
      (backspace ⟨vars, ⟨layout, ⟨"cat".toList, a, b⟩, element⟩⟩).me.input.value
        = "ca".toList := by
  have h : ∀ (W : JSString) (x y : Nat),
      (backspace ⟨vars, ⟨layout, ⟨W, x, y⟩, element⟩⟩).me.input.value
        = W.take (W.length - 1) := by
    intro W x y
    simp only [backspace, backspaceField, val_value]
    exact substr_dropLast W
  refine ⟨h V a b, ?_, ?_, ?_, ?_⟩
  · rw [h, List.dropLast_eq_take]
  · rw [h, h]
  · rw [h]
    rfl
  · rw [h]
    decide

/-- C9: `del()` sets the value to `V` without its first character, whatever the caret
or selection is; an empty value stays empty, and `"cat"` becomes `"at"`. -/
theorem del_trims_first (V : JSString) (a b a' b' : Nat) (vars : Vars)
    (layout : String) (element : Option Keyboard) :
    (del ⟨vars, ⟨layout, ⟨V, a, b⟩, element⟩⟩).me.input.value = V.drop 1 ∧
      (del ⟨vars, ⟨layout, ⟨V, a, b⟩, element⟩⟩).me.input.value = V.tail ∧
      (del ⟨vars, ⟨layout, ⟨V, a, b⟩, element⟩⟩).me.input.value
        = (del ⟨vars, ⟨layout, ⟨V, a', b'⟩, element⟩⟩).me.input.value ∧
      (del ⟨vars, ⟨layout, ⟨[], a, b⟩, element⟩⟩).me.input.value = [] ∧
      (del ⟨vars, ⟨layout, ⟨"cat".toList, a, b⟩, element⟩⟩).me.input.value
        = "at".toList := by
  have h : ∀ (W : JSString) (x y : Nat),
      (del ⟨vars, ⟨layout, ⟨W, x, y⟩, element⟩⟩).me.input.value = W.drop 1 := by
    intro W x y
    simp only [del, delField, val_value]
    exact substr_tail W
  refine ⟨h V a b, ?_, ?_, ?_, ?_⟩
  · rw [h]
    simp
  · rw [h, h]
  · rw [h]
    rfl
  · rw [h]
    decide

/-! ## Lemmas on the modifiers -/

theorem toggleShiftOff_input (s : State) : (toggleShiftOff s).me.input = s.me.input := by
  simp [toggleShiftOff, Plugin.onClass]

theorem toggleShiftOn_input (s : State) : (toggleShiftOn s).me.input = s.me.input := by
  simp [toggleShiftOn, Plugin.onClass]

theorem type_capslock (T : JSString) (s : State) :
    (type T s).vars.capslock = s.vars.capslock := by
  unfold type
  dsimp only
  split <;> simp [toggleShiftOff]

theorem type_shift (T : JSString) (s : State) :
    (type T s).vars.shift = (s.vars.shift && s.vars.capslock) := by
  unfold type
  dsimp only
  split
  · next h =>
    simp only [Bool.and_eq_true, Bool.not_eq_true', toggleShiftOff] at h ⊢
    simp [h.2]
  · next h =>
    simp only [Bool.and_eq_true, Bool.not_eq_true', not_and, Bool.not_eq_false] at h ⊢
    cases hs : s.vars.shift
    · simp
    · simp [h hs]

theorem shift_key_click_input (s : State) : (shift_key_click s).me.input = s.me.input := by
  unfold shift_key_click
  split
  · simp [toggleShiftOff, Plugin.onClass]
  · exact toggleShiftOn_input s

theorem typeLetters_latched (upper : JSString → JSString) (texts : List JSString) :
    ∀ s : State, s.vars.capslock = true →
      (typeLetters upper texts s).vars.capslock = true ∧
      (typeLetters upper texts s).me.input
        = texts.foldl (fun f t => typeInto f (upper t)) s.me.input := by
  induction texts with
  | nil => intro s h; exact ⟨h, rfl⟩
  | cons t ts ih =>
    intro s h
    have h1 : (letters_click upper t s).vars.capslock = true := by
      unfold letters_click
      rw [type_capslock, h]
    have h2 : (letters_click upper t s).me.input = typeInto s.me.input (upper t) := by
      unfold letters_click
      rw [type_input, h]
      simp
    have h3 := ih (letters_click upper t s) h1
    simp only [typeLetters, List.foldl_cons] at h3 ⊢
    rw [h2] at h3
    exact h3

/-! ## One-shot shift and capslock latch -/

/-- C4: from `shift = false` and `capslock = false`, after one click on shift the
letter `a` is inserted as `toUpperCase(a)` and clears shift, so that the next letter
`b` is inserted unchanged. -/
theorem shift_one_shot (upper : JSString → JSString) (a b : JSString) (s : State)
    (_hs : s.vars.shift = false) (hc : s.vars.capslock = false) :
    letters_click upper a (shift_key_click s) = type (upper a) (shift_key_click s) ∧
      (letters_click upper a (shift_key_click s)).me.input
        = typeInto s.me.input (upper a) ∧
      (letters_click upper a (shift_key_click s)).vars.shift = false ∧
      letters_click upper b (letters_click upper a (shift_key_click s))
        = type b (letters_click upper a (shift_key_click s)) ∧
      (letters_click upper b (letters_click upper a (shift_key_click s))).me.input
        = typeInto (typeInto s.me.input (upper a)) b := by
  have h1 : (shift_key_click s).vars.shift = true := by
    simp [shift_key_click, hc, toggleShiftOn]
  have h2 : (shift_key_click s).vars.capslock = false := by
    simp [shift_key_click, hc, toggleShiftOn]
  have e1 : letters_click upper a (shift_key_click s) = type (upper a) (shift_key_click s) := by
    simp [letters_click, h1]
  have e2 : (type (upper a) (shift_key_click s)).vars.shift = false := by
    rw [type_shift, h1, h2]
    rfl
  have e3 : (type (upper a) (shift_key_click s)).vars.capslock = false := by
    rw [type_capslock, h2]
  have e4 : (type (upper a) (shift_key_click s)).me.input = typeInto s.me.input (upper a) := by
    rw [type_input, shift_key_click_input]
  have e5 : letters_click upper b (type (upper a) (shift_key_click s))
      = type b (type (upper a) (shift_key_click s)) := by
    simp [letters_click, e2, e3]
  rw [e1]
  refine ⟨rfl, e4, e2, e5, ?_⟩
  rw [e5, type_input, e4]

/-- C4 on the keys `"a"` and `"b"` of an empty field: the field reads `"Ab"`. -/
theorem shift_one_shot_witness :
    (letters_click asciiUpper "b".toList (letters_click asciiUpper "a".toList
      (shift_key_click (State.fresh "azeri" ⟨[], 0, 0⟩)))).me.input.value = "Ab".toList := by
  have h := shift_one_shot asciiUpper "a".toList "b".toList (State.fresh "azeri" ⟨[], 0, 0⟩)
    rfl rfl
  rw [h.2.2.2.2]
  decide

/-- C5: after a double click on shift capslock is set; every sequence of letter
activations then inserts the uppercase of each token and leaves capslock set; one
click on shift then clears capslock and shift, and the next letter is inserted
unchanged. -/
theorem capslock_latch (upper : JSString → JSString) (texts : List JSString)
    (c : JSString) (s s1 : State)
    (h : s1 = shift_key_double_click s ∨ s1 = shift_key_dblclick s) :
    s1.vars.capslock = true ∧
      (typeLetters upper texts s1).vars.capslock = true ∧
      (typeLetters upper texts s1).me.input
        = texts.foldl (fun f t => typeInto f (upper t)) s.me.input ∧
      (shift_key_click (typeLetters upper texts s1)).vars.capslock = false ∧
      (shift_key_click (typeLetters upper texts s1)).vars.shift = false ∧
      letters_click upper c (shift_key_click (typeLetters upper texts s1))
        = type c (shift_key_click (typeLetters upper texts s1)) ∧
      (letters_click upper c (shift_key_click (typeLetters upper texts s1))).me.input
        = typeInto (typeLetters upper texts s1).me.input c := by
  have hcap : s1.vars.capslock = true := by
    rcases h with h | h <;> subst h <;> rfl
  have hin : s1.me.input = s.me.input := by
    rcases h with h | h <;> subst h
    · simp only [shift_key_double_click, shift_key_dblclick, shift_key_click_input]
    · rfl
  have hl := typeLetters_latched upper texts s1 hcap
  rw [hin] at hl
  have u1 : (shift_key_click (typeLetters upper texts s1)).vars.capslock = false := by
    simp [shift_key_click, hl.1, toggleShiftOff]
  have u2 : (shift_key_click (typeLetters upper texts s1)).vars.shift = false := by
    simp [shift_key_click, hl.1, toggleShiftOff]
  have u3 : letters_click upper c (shift_key_click (typeLetters upper texts s1))
      = type c (shift_key_click (typeLetters upper texts s1)) := by
    simp [letters_click, u1, u2]
  refine ⟨hcap, hl.1, hl.2, u1, u2, u3, ?_⟩
  rw [u3, type_input, shift_key_click_input]

/-- C5 on the keys `"a"` and `"b"` of an empty field: after the double click the
field reads `"AB"`. -/
theorem capslock_latch_witness :
    (typeLetters asciiUpper ["a".toList, "b".toList]
      (shift_key_double_click (State.fresh "azeri" ⟨[], 0, 0⟩))).me.input.value
      = "AB".toList := by
  have h := capslock_latch asciiUpper ["a".toList, "b".toList] "c".toList
    (State.fresh "azeri" ⟨[], 0, 0⟩) (shift_key_double_click (State.fresh "azeri" ⟨[], 0, 0⟩))
    (Or.inl rfl)
  rw [h.2.2.1]
  decide

/-! ## The layout cycler -/

theorem toggleLayout_layout_id (v : Vars) :
    (toggleLayout v).2.layout_id = v.layout_id + 1 := by
  unfold toggleLayout
  dsimp only
  split
  · rfl
  · next h =>
    have h0 : v.layout_id = 0 := by simpa using h
    rw [h0]

theorem toggleLayout_name (v : Vars) :
    (toggleLayout v).1 = selectable[(v.layout_id + 1) % selectable.length]? := by
  unfold toggleLayout
  dsimp only
  split
  · rfl
  · next h =>
    have h0 : v.layout_id = 0 := by simpa using h
    rw [h0]

theorem toggleLayoutTimes_layout_id (n : Nat) (v : Vars) :
    (toggleLayoutTimes n v).layout_id = v.layout_id + n := by
  induction n with
  | zero => rfl
  | succ n ih =>
    simp only [toggleLayoutTimes, toggleLayout_layout_id, ih]
    omega

theorem kthToggleLayout_eq (k : Nat) (v : Vars) (hk : 1 ≤ k) (h0 : v.layout_id = 0) :
    kthToggleLayout k v = selectable[k % selectable.length]? := by
  unfold kthToggleLayout
  rw [toggleLayout_name, toggleLayoutTimes_layout_id, h0]
  have e : 0 + (k - 1) + 1 = k := by omega
  rw [e]

/-- C6: with `layout_id` starting at 0, the `k`-th call of `toggleLayout()` returns
`selectable[k mod len]`: a member of the list, the entry at index 1 for the first
call, and the same name again `len = 3` calls later. -/
theorem toggleLayout_cycle (k : Nat) (v : Vars) (hk : 1 ≤ k) (h0 : v.layout_id = 0) :
    kthToggleLayout k v = selectable[k % selectable.length]? ∧
      (∃ name, kthToggleLayout k v = some name ∧ name ∈ selectable) ∧
      kthToggleLayout 1 v = selectable[1]? ∧
      kthToggleLayout 1 v = some "english" ∧
      kthToggleLayout (k + selectable.length) v = kthToggleLayout k v ∧
      kthToggleLayout (1 + selectable.length) v = selectable[1]? ∧
      selectable.length = 3 := by
  have hlen : selectable.length = 3 := rfl
  have hk1 := kthToggleLayout_eq k v hk h0
  have h1 := kthToggleLayout_eq 1 v (Nat.le_refl 1) h0
  have hp := kthToggleLayout_eq (k + selectable.length) v (by omega) h0
  have hq := kthToggleLayout_eq (1 + selectable.length) v (by omega) h0
  refine ⟨hk1, ?_, h1, h1, ?_, hq, hlen⟩
  · have hlt : k % selectable.length < selectable.length := Nat.mod_lt _ (by decide)
    refine ⟨selectable[k % selectable.length], ?_, List.getElem_mem _⟩
    rw [hk1]
    exact List.getElem?_eq_getElem hlt
  · rw [hp, hk1, Nat.add_mod_right]

/-- C6 at the fourth call: it returns `"english"`, the entry at index 1, again. -/
theorem toggleLayout_cycle_witness :
    kthToggleLayout 4 Vars.initial = some "english" := by
  have h := (toggleLayout_cycle 4 Vars.initial (by decide) rfl).1
  rw [h]
  rfl

/-! ## Rebuilding the keyboard -/

/-- C3 fails on the code: `"russian"` is listed in `selectable` but `layouts` has no
property of that name, so `createKeyboard("russian")` throws, and so does the second
`layout_switch` activation after construction. -/
theorem layout_switch_russian_throws :
    "russian" ∈ selectable ∧
      layouts.lookup "russian" = none ∧
      (∀ s : State, createKeyboard "russian" s
        = .error ⟨{ s.vars with shift := false, capslock := false }, s.me⟩) ∧
      (∀ (vars : Vars) (me : Plugin),
        (toggleLayout { vars with layout_id := 1 }).1 = some "russian" ∧
        ∃ s1, Command.call .layout_switch ⟨{ vars with layout_id := 1 }, me⟩ = .error s1 ∧
          s1.me.element = me.element) ∧
      (∃ s1 s2 s3, init (State.fresh "english" ⟨[], 0, 0⟩) = .ok s1 ∧
        fkeys_click "layout_switch" s1 = .ok s2 ∧
        fkeys_click "layout_switch" s2 = .error s3) := by
  refine ⟨by decide, by decide, fun s => rfl, fun vars me => ⟨rfl, _, rfl, rfl⟩,
    _, _, _, rfl, rfl, rfl⟩

theorem layouts_lookup_cases (l : String) :
    layouts.lookup l = none ∨ layouts.lookup l = some (.names selectable) ∨
      ∃ rows, layouts.lookup l = some (.rows rows) := by
  unfold layouts
  simp only [List.lookup]
  repeat' split
  all_goals simp

theorem createKeyboard_vars_layout (l : String) (s : State) :
    (after (createKeyboard l s)).vars.layout = s.vars.layout := by
  unfold createKeyboard
  dsimp only
  split <;> rfl

theorem createKeyboard_ok_element (l : String) (s s1 t : State)
    (h : createKeyboard l s = .ok s1) :
    ∃ t1 rows, createKeyboard l t = .ok t1 ∧ t1.me.element = s1.me.element ∧
      layouts.lookup l = some (.rows rows) ∧ t1.me.element = some (rows.map createLine) := by
  rcases layouts_lookup_cases l with hl | hl | ⟨rows, hl⟩
  · simp [createKeyboard, hl] at h
  · simp [createKeyboard, hl, selectable] at h
  · simp only [createKeyboard, hl, Except.ok.injEq] at h
    subst h
    refine ⟨⟨{ t.vars with shift := false, capslock := false },
      { t.me with element := some (rows.map createLine) }⟩, rows, ?_, rfl, hl, rfl⟩
    simp only [createKeyboard, hl]

theorem call_vars_layout (c : Command) (s : State) :
    (after (c.call s)).vars.layout = s.vars.layout := by
  cases c
  · exact createKeyboard_vars_layout "numeric" s
  · simp only [Command.call]
    rw [createKeyboard_vars_layout]
    rfl
  · exact createKeyboard_vars_layout s.vars.layout s
  · exact createKeyboard_vars_layout "symbolic" s

theorem runCommands_vars_layout (cs : List Command) :
    ∀ s : State, (runCommands cs s).vars.layout = s.vars.layout := by
  induction cs with
  | nil => intro s; rfl
  | cons c cs ih =>
    intro s
    simp only [runCommands, List.foldl_cons] at ih ⊢
    rw [ih, call_vars_layout]

/-- C7: for a widget constructed with the layout `L0`, after every sequence of switch
commands a `character_switch` activation runs `createKeyboard(L0)`, which completes and
displays the grid of `L0` that was displayed at construction. -/
theorem character_switch_renders_initial (L0 : String) (vars : Vars) (input : TextField)
    (element : Option Keyboard) (cs : List Command) (s1 : State)
    (hinit : init ⟨vars, ⟨L0, input, element⟩⟩ = .ok s1) :
    fkeys_click "character_switch" (runCommands cs s1)
        = createKeyboard L0 (runCommands cs s1) ∧
      ∃ s3 rows, fkeys_click "character_switch" (runCommands cs s1) = .ok s3 ∧
        s3.me.element = s1.me.element ∧
        layouts.lookup L0 = some (.rows rows) ∧
        s3.me.element = some (rows.map createLine) := by
  have hl1 : s1.vars.layout = L0 := by
    have h := createKeyboard_vars_layout L0
      ⟨{ vars with layout := L0 }, ⟨L0, input, element⟩⟩
    simp only [init] at hinit
    rw [hinit] at h
    exact h
  have hl2 : (runCommands cs s1).vars.layout = L0 := by
    rw [runCommands_vars_layout, hl1]
  have e : fkeys_click "character_switch" (runCommands cs s1)
      = createKeyboard L0 (runCommands cs s1) := by
    show createKeyboard (runCommands cs s1).vars.layout (runCommands cs s1) = _
    rw [hl2]
  refine ⟨e, ?_⟩
  simp only [init] at hinit
  obtain ⟨t1, rows, h1, h2, h3, h4⟩ :=
    createKeyboard_ok_element L0 _ s1 (runCommands cs s1) hinit
  exact ⟨t1, rows, e.trans h1, h2, h3, h4⟩

/-- C7 for a widget constructed with `"azeri"`: after `numeric_switch`, two
`layout_switch` and `symbol_switch`, `character_switch` displays the `azeri` grid. -/
theorem character_switch_renders_initial_witness :
    ∃ s3, fkeys_click "character_switch"
        (runCommands [.numeric_switch, .layout_switch, .layout_switch, .symbol_switch]
          (after (init (State.fresh "azeri" ⟨[], 0, 0⟩)))) = .ok s3 ∧
      s3.me.element = some (azeri.map createLine) := by
  obtain ⟨_, s3, rows, h1, _, h3, h4⟩ := character_switch_renders_initial "azeri"
    Vars.initial ⟨[], 0, 0⟩ none
    [.numeric_switch, .layout_switch, .layout_switch, .symbol_switch]
    (after (init (State.fresh "azeri" ⟨[], 0, 0⟩))) rfl
  have h5 : rows = azeri := by
    have h6 : layouts.lookup "azeri" = some (.rows azeri) := rfl
    rw [h6] at h3
    injection h3 with h7
    injection h7 with h8
    exact h8.symm
  exact ⟨s3, h1, by rw [h4, h5]⟩

/-! ## The catalog -/

/-- C10: in every layout of the catalog (`azeri`, `english`, `numeric`, `numbers_only`,
`symbolic`) every token of every row is a string of exactly one character or the name
of a key of `function_keys`. -/
theorem catalog_tokens :
    catalog.map Prod.fst = ["azeri", "english", "numeric", "numbers_only", "symbolic"] ∧
      ∀ p ∈ catalog, ∀ row ∈ p.2, ∀ tok ∈ row,
        jsLength tok = 1 ∨ tok ∈ function_keys.map Prod.fst := by
  decide

/-! ## Failed and completed rebuilds -/

theorem lookup_rows_mem (name : String) (rows : List (List String)) :
    ∀ L : List (String × LayoutsValue), L.lookup name = some (.rows rows) →
      name ∈ (L.filterMap fun p =>
        match p.2 with
        | .rows r => some (p.1, r)
        | .names _ => none).map Prod.fst := by
  intro L
  induction L with
  | nil => intro h; simp [List.lookup] at h
  | cons p L ih =>
    intro h
    obtain ⟨k, v⟩ := p
    simp only [List.lookup] at h
    split at h
    · next hk =>
      have hn : name = k := by simpa using hk
      injection h with hv
      subst hv
      subst hn
      simp [List.filterMap_cons]
    · have h1 := ih h
      cases v <;> simp only [List.filterMap_cons]
      · exact h1
      · simp only [List.map_cons, List.mem_cons]
        exact Or.inr h1

theorem createKeyboard_unknown (name : String) (s : State)
    (h : name ∉ catalog.map Prod.fst) :
    createKeyboard name s
      = .error ⟨{ s.vars with shift := false, capslock := false }, s.me⟩ := by
  rcases layouts_lookup_cases name with hl | hl | ⟨rows, hl⟩
  · simp only [createKeyboard, hl]
  · simp only [createKeyboard, hl, selectable]
  · exact absurd (lookup_rows_mem name rows layouts hl) h

theorem catalog_lookup (name : String) (h : name ∈ catalog.map Prod.fst) :
    ∃ rows, layouts.lookup name = some (.rows rows) := by
  have hc : catalog.map Prod.fst
      = ["azeri", "english", "numeric", "numbers_only", "symbolic"] := by decide
  rw [hc] at h
  simp only [List.mem_cons, List.mem_singleton, List.not_mem_nil, or_false] at h
  rcases h with h | h | h | h | h <;> subst h <;> exact ⟨_, rfl⟩

theorem createKeyboard_modifiers (l : String) (s : State) :
    (after (createKeyboard l s)).vars.shift = false ∧
      (after (createKeyboard l s)).vars.capslock = false := by
  unfold createKeyboard
  dsimp only
  split <;> exact ⟨rfl, rfl⟩

/-- C11: for every name that is not the name of a layout of the catalog,
`createKeyboard(name)` throws and produces no grid, and the content of the host
element is the grid that was displayed before the call. -/
theorem createKeyboard_unknown_keeps_grid (name : String) (s : State)
    (h : name ∉ catalog.map Prod.fst) :
    ∃ s1, createKeyboard name s = .error s1 ∧ s1.me.element = s.me.element ∧
      s1.me = s.me ∧ (∀ s2, createKeyboard name s ≠ .ok s2) := by
  refine ⟨_, createKeyboard_unknown name s h, rfl, rfl, ?_⟩
  intro s2 h2
  rw [createKeyboard_unknown name s h] at h2
  cases h2

/-- C11 for the name `"russian"` on a widget that displays the `english` grid: the
call throws and the `english` grid stays. -/
theorem createKeyboard_unknown_keeps_grid_witness :
    ∃ s1, createKeyboard "russian" (after (init (State.fresh "english" ⟨[], 0, 0⟩)))
        = .error s1 ∧
      s1.me.element = some (english.map createLine) := by
  obtain ⟨s1, h1, h2, _, _⟩ := createKeyboard_unknown_keeps_grid "russian"
    (after (init (State.fresh "english" ⟨[], 0, 0⟩))) (by decide)
  exact ⟨s1, h1, by rw [h2]; rfl⟩

/-- C19: for every name that is not a layout of the catalog and every prior modifier
state, `createKeyboard(name)` throws after it has set `shift` and `capslock` to false:
the grid and the rest of the state are the old ones, the modifiers are cleared. -/
theorem createKeyboard_failure_clears_modifiers (name : String) (s : State)
    (h : name ∉ catalog.map Prod.fst) :
    ∃ s1, createKeyboard name s = .error s1 ∧
      s1.vars.shift = false ∧ s1.vars.capslock = false ∧
      s1.me.element = s.me.element ∧ s1.me = s.me ∧
      s1.vars.layout = s.vars.layout ∧ s1.vars.layout_id = s.vars.layout_id :=
  ⟨_, createKeyboard_unknown name s h, rfl, rfl, rfl, rfl, rfl, rfl⟩

/-- C19 for the name `"russian"` with shift and the capslock latch both set: after the
throw both are false. -/
theorem createKeyboard_failure_clears_modifiers_witness :
    ∃ s1, createKeyboard "russian"
        ⟨⟨true, true, "english", 1⟩, ⟨"english", ⟨[], 0, 0⟩, some (english.map createLine)⟩⟩
        = .error s1 ∧
      s1.vars.shift = false ∧ s1.vars.capslock = false ∧
      s1.me.element = some (english.map createLine) := by
  obtain ⟨s1, h1, h2, h3, h4, _⟩ := createKeyboard_failure_clears_modifiers "russian"
    ⟨⟨true, true, "english", 1⟩, ⟨"english", ⟨[], 0, 0⟩, some (english.map createLine)⟩⟩
    (by decide)
  exact ⟨s1, h1, h2, h3, h4⟩

/-- C13: for every modifier state and every layout name of the catalog,
`createKeyboard(name)` completes with `shift = false` and `capslock = false` and a
fresh grid; after each of the four switch commands both modifiers are false. -/
theorem createKeyboard_clears_modifiers (name : String) (s : State) (c : Command)
    (h : name ∈ catalog.map Prod.fst) :
    (∃ s1 rows, createKeyboard name s = .ok s1 ∧
        s1.vars.shift = false ∧ s1.vars.capslock = false ∧
        layouts.lookup name = some (.rows rows) ∧
        s1.me.element = some (rows.map createLine)) ∧
      (after (c.call s)).vars.shift = false ∧
      (after (c.call s)).vars.capslock = false := by
  constructor
  · obtain ⟨rows, hl⟩ := catalog_lookup name h
    refine ⟨⟨{ s.vars with shift := false, capslock := false },
      { s.me with element := some (rows.map createLine) }⟩, rows, ?_, rfl, rfl, hl, rfl⟩
    simp only [createKeyboard, hl]
  · cases c
    · exact createKeyboard_modifiers "numeric" s
    · exact createKeyboard_modifiers _ _
    · exact createKeyboard_modifiers s.vars.layout s
    · exact createKeyboard_modifiers "symbolic" s

/-- C13 for the layout `"numeric"` and the command `numeric_switch` with shift and the
capslock latch both set: after the switch both are false. -/
theorem createKeyboard_clears_modifiers_witness :
    (after (Command.call .numeric_switch
        ⟨⟨true, true, "azeri", 0⟩, ⟨"azeri", ⟨[], 0, 0⟩, some (azeri.map createLine)⟩⟩)).vars.shift
        = false ∧
      (after (Command.call .numeric_switch
        ⟨⟨true, true, "azeri", 0⟩, ⟨"azeri", ⟨[], 0, 0⟩, some (azeri.map createLine)⟩⟩)).vars.capslock
        = false :=
  (createKeyboard_clears_modifiers "numeric"
    ⟨⟨true, true, "azeri", 0⟩, ⟨"azeri", ⟨[], 0, 0⟩, some (azeri.map createLine)⟩⟩
    .numeric_switch (by decide)).2

/-! ## Modifier transitions -/

theorem mem_addClass (k : Key) (c x : String) :
    x ∈ (k.addClass c).classes ↔ x ∈ k.classes ∨ x = c := by
  unfold Key.addClass
  split
  · next h =>
    constructor
    · exact Or.inl
    · rintro (h1 | h1)
      · exact h1
      · exact h1 ▸ h
  · simp

theorem addClass_of_mem (k : Key) (c : String) (h : c ∈ k.classes) : k.addClass c = k := by
  unfold Key.addClass
  rw [if_pos h]

theorem addClass_pair_idem (cl u cs a : String) (h2 : a ≠ cl) (k : Key) :
    (fun k : Key =>
        if cs ∈ (if cl ∈ k.classes then k.addClass u else k).classes
        then (if cl ∈ k.classes then k.addClass u else k).addClass a
        else (if cl ∈ k.classes then k.addClass u else k))
      (if cs ∈ (if cl ∈ k.classes then k.addClass u else k).classes
        then (if cl ∈ k.classes then k.addClass u else k).addClass a
        else (if cl ∈ k.classes then k.addClass u else k))
      = (if cs ∈ (if cl ∈ k.classes then k.addClass u else k).classes
        then (if cl ∈ k.classes then k.addClass u else k).addClass a
        else (if cl ∈ k.classes then k.addClass u else k)) := by
  dsimp only
  by_cases hcl : cl ∈ k.classes
  · simp only [if_pos hcl]
    have hu : u ∈ (k.addClass u).classes := (mem_addClass k u u).2 (Or.inr rfl)
    have hcl1 : cl ∈ (k.addClass u).classes := (mem_addClass k u cl).2 (Or.inl hcl)
    by_cases hcs : cs ∈ (k.addClass u).classes
    · simp only [if_pos hcs]
      have e1 : cl ∈ ((k.addClass u).addClass a).classes :=
        (mem_addClass _ a cl).2 (Or.inl hcl1)
      have e2 : u ∈ ((k.addClass u).addClass a).classes :=
        (mem_addClass _ a u).2 (Or.inl hu)
      have e3 : a ∈ ((k.addClass u).addClass a).classes :=
        (mem_addClass _ a a).2 (Or.inr rfl)
      have e4 : cs ∈ ((k.addClass u).addClass a).classes :=
        (mem_addClass _ a cs).2 (Or.inl hcs)
      rw [if_pos e1, addClass_of_mem _ u e2, if_pos e4, addClass_of_mem _ a e3]
    · simp only [if_neg hcs]
      rw [if_pos hcl1, addClass_of_mem _ u hu, if_neg hcs]
  · simp only [if_neg hcl]
    by_cases hcs : cs ∈ k.classes
    · simp only [if_pos hcs]
      have e1 : cl ∉ (k.addClass a).classes := by
        rw [mem_addClass]
        rintro (h | h)
        · exact hcl h
        · exact h2 h.symm
      have e3 : a ∈ (k.addClass a).classes := (mem_addClass k a a).2 (Or.inr rfl)
      have e4 : cs ∈ (k.addClass a).classes := (mem_addClass k a cs).2 (Or.inl hcs)
      rw [if_neg e1, if_pos e4, addClass_of_mem _ a e3]
    · simp only [if_neg hcs, if_neg hcl]

theorem toggleShiftOn_element (s : State) :
    (toggleShiftOn s).me.element = s.me.element.map fun kb => kb.map fun line =>
      line.map fun k =>
        if "shift" ∈ (if "letter" ∈ k.classes then k.addClass "uppercase" else k).classes
        then (if "letter" ∈ k.classes then k.addClass "uppercase" else k).addClass "active"
        else (if "letter" ∈ k.classes then k.addClass "uppercase" else k) := by
  simp only [toggleShiftOn, Plugin.onClass, Option.map_map]
  congr 1
  funext kb
  simp only [Function.comp, List.map_map]
  apply List.map_congr_left
  intro line _
  simp only [Function.comp, List.map_map]
  apply List.map_congr_left
  intro k _
  rfl

theorem toggleShiftOn_idem (s : State) : toggleShiftOn (toggleShiftOn s) = toggleShiftOn s := by
  have h1 : (toggleShiftOn (toggleShiftOn s)).me.element = (toggleShiftOn s).me.element := by
    rw [toggleShiftOn_element (toggleShiftOn s), toggleShiftOn_element s]
    rw [Option.map_map]
    congr 1
    funext kb
    simp only [Function.comp, List.map_map]
    apply List.map_congr_left
    intro line _
    simp only [Function.comp, List.map_map]
    apply List.map_congr_left
    intro k _
    simp only [Function.comp]
    exact addClass_pair_idem "letter" "uppercase" "shift" "active" (by decide) k
  have h2 : (toggleShiftOn (toggleShiftOn s)).vars = (toggleShiftOn s).vars := rfl
  have h3 : (toggleShiftOn (toggleShiftOn s)).me.input = (toggleShiftOn s).me.input := rfl
  have h4 : (toggleShiftOn (toggleShiftOn s)).me.settings_layout
      = (toggleShiftOn s).me.settings_layout := rfl
  cases hA : toggleShiftOn (toggleShiftOn s) with
  | mk v1 m1 =>
    cases hB : toggleShiftOn s with
    | mk v2 m2 =>
      rw [hA, hB] at h1 h2 h3 h4
      cases m1
      cases m2
      simp only at h1 h2 h3 h4
      subst h1 h2 h3 h4
      rfl

/-- C17: for every modifier state and every inserted text, `type()` leaves `capslock`
unchanged and `shift` equal to `shift && capslock` of before; afterwards
`shift || capslock` is the `capslock` of before, and the state `shift = true`,
`capslock = false` never holds. -/
theorem type_modifiers (T : JSString) (s : State) :
    (type T s).vars.capslock = s.vars.capslock ∧
      (type T s).vars.shift = (s.vars.shift && s.vars.capslock) ∧
      ((type T s).vars.shift || (type T s).vars.capslock) = s.vars.capslock ∧
      ¬ ((type T s).vars.shift = true ∧ (type T s).vars.capslock = false) := by
  have h1 := type_capslock T s
  have h2 := type_shift T s
  refine ⟨h1, h2, ?_, ?_⟩
  · rw [h1, h2]
    cases s.vars.shift <;> cases s.vars.capslock <;> rfl
  · rw [h1, h2]
    cases s.vars.shift <;> cases s.vars.capslock <;> simp

/-- C16: with `capslock = false` a single click on shift sets `shift = true` whatever
it was, leaves `capslock = false`, and a second click changes nothing; any number of
further clicks leaves the same state, while an insertion or a rebuild clears
`shift`. -/
theorem shift_click_not_toggle (s : State) (n : Nat) (T : JSString) (l : String)
    (hc : s.vars.capslock = false) :
    (shift_key_click s).vars.shift = true ∧
      (shift_key_click s).vars.capslock = false ∧
      shift_key_click (shift_key_click s) = shift_key_click s ∧
      shift_key_clicks (n + 1) s = shift_key_click s ∧
      (shift_key_clicks (n + 1) s).vars.shift = true ∧
      (type T (shift_key_click s)).vars.shift = false ∧
      (after (createKeyboard l (shift_key_click s))).vars.shift = false := by
  have e : shift_key_click s = toggleShiftOn s := by
    simp [shift_key_click, hc]
  have hc1 : (toggleShiftOn s).vars.capslock = false := hc
  have e2 : shift_key_click (toggleShiftOn s) = toggleShiftOn s := by
    have e3 : shift_key_click (toggleShiftOn s) = toggleShiftOn (toggleShiftOn s) := by
      simp [shift_key_click, hc1]
    rw [e3, toggleShiftOn_idem]
  have hn : ∀ m : Nat, shift_key_clicks (m + 1) s = toggleShiftOn s := by
    intro m
    induction m with
    | zero => exact e
    | succ m ih =>
      show shift_key_click (shift_key_clicks (m + 1) s) = toggleShiftOn s
      rw [ih, e2]
  rw [hn n, e, e2]
  refine ⟨rfl, hc, rfl, rfl, rfl, ?_, (createKeyboard_modifiers l _).1⟩
  rw [type_shift, hc1]
  simp

/-- C16 from the state with `shift` already set: three clicks on shift leave
`shift = true`. -/
theorem shift_click_not_toggle_witness :
    (shift_key_clicks 3
      ⟨⟨true, false, "azeri", 0⟩, ⟨"azeri", ⟨[], 0, 0⟩, some (azeri.map createLine)⟩⟩).vars.shift
      = true :=
  (shift_click_not_toggle
    ⟨⟨true, false, "azeri", 0⟩, ⟨"azeri", ⟨[], 0, 0⟩, some (azeri.map createLine)⟩⟩
    2 [] "azeri" rfl).2.2.2.2.1

/-- C12 as stated fails: with `shift = true` and `capslock = false` a click on the
space key leaves `shift = false`. -/
theorem function_key_consumes_counterexample :
    ¬ ∀ s : State, s.vars.shift = true → s.vars.capslock = false →
        (space_key_click s).vars.shift = true ∧ (return_key_click s).vars.shift = true ∧
        (backspace_key_click s).vars.shift = true ∧ (del_key_click s).vars.shift = true := by
  intro h
  have h1 := (h ⟨⟨true, false, "azeri", 0⟩, ⟨"azeri", ⟨[], 0, 0⟩, none⟩⟩ rfl rfl).1
  revert h1
  decide

/-- C12, amended: with `shift = true` and `capslock = false`, every activation that
inserts through `type` (a letter key, space, return) runs the one-shot consumption
once and leaves `shift = false`; backspace and del do not run it and leave the
modifiers and the keys as they are. -/
theorem one_shot_consumption (upper : JSString → JSString) (text : JSString) (s : State)
    (hs : s.vars.shift = true) (hc : s.vars.capslock = false) :
    letters_click upper text s
        = toggleShiftOff ⟨s.vars, { s.me with input := typeInto s.me.input (upper text) }⟩ ∧
      space_key_click s
        = toggleShiftOff ⟨s.vars, { s.me with input := typeInto s.me.input " ".toList }⟩ ∧
      return_key_click s
        = toggleShiftOff ⟨s.vars, { s.me with input := typeInto s.me.input "\n".toList }⟩ ∧
      (letters_click upper text s).vars.shift = false ∧
      (space_key_click s).vars.shift = false ∧
      (return_key_click s).vars.shift = false ∧
      (backspace_key_click s).vars = s.vars ∧
      (backspace_key_click s).me.element = s.me.element ∧
      (del_key_click s).vars = s.vars ∧
      (del_key_click s).me.element = s.me.element ∧
      fkeys_click "space" s = .ok s ∧ fkeys_click "return" s = .ok s ∧
      fkeys_click "backspace" s = .ok s ∧ fkeys_click "del" s = .ok s := by
  have ht : ∀ T : JSString,
      type T s = toggleShiftOff ⟨s.vars, { s.me with input := typeInto s.me.input T }⟩ := by
    intro T
    simp [type, hs, hc]
  have hl : letters_click upper text s = type (upper text) s := by
    simp [letters_click, hs]
  refine ⟨by rw [hl, ht], ht _, ht _, ?_, ?_, ?_, rfl, rfl, rfl, rfl, rfl, rfl, rfl, rfl⟩
  · rw [hl, ht]
    rfl
  · show (type " ".toList s).vars.shift = false
    rw [ht]
    rfl
  · show (type "\n".toList s).vars.shift = false
    rw [ht]
    rfl

/-- C12, amended, on the `azeri` keyboard with shift set: the space key leaves
`shift = false`, the backspace key leaves the modifiers as they are. -/
theorem one_shot_consumption_witness :
    (space_key_click
        ⟨⟨true, false, "azeri", 0⟩, ⟨"azeri", ⟨[], 0, 0⟩, none⟩⟩).vars.shift = false ∧
      (backspace_key_click
        ⟨⟨true, false, "azeri", 0⟩, ⟨"azeri", ⟨[], 0, 0⟩, none⟩⟩).vars
        = ⟨true, false, "azeri", 0⟩ := by
  have h := one_shot_consumption asciiUpper "a".toList
    ⟨⟨true, false, "azeri", 0⟩, ⟨"azeri", ⟨[], 0, 0⟩, none⟩⟩ rfl rfl
  exact ⟨h.2.2.2.2.1, h.2.2.2.2.2.2.1⟩

/-! ## The cycler after construction -/

theorem createKeyboard_vars (l : String) (s : State) :
    (after (createKeyboard l s)).vars
      = { s.vars with shift := false, capslock := false } := by
  unfold createKeyboard
  dsimp only
  split <;> rfl

/-- C18: whatever layout the widget was constructed with, the first `layout_switch`
activation renders `selectable[1] = "english"`; the second call of the cycler returns
`"russian"`, and `selectable[0] = "azeri"` is returned and rendered on the third. -/
theorem first_layout_switch_renders_english (L0 : String) (vars : Vars)
    (input : TextField) (element : Option Keyboard) (s1 : State)
    (h0 : vars.layout_id = 0) (hinit : init ⟨vars, ⟨L0, input, element⟩⟩ = .ok s1) :
    selectable[1]? = some "english" ∧ selectable[0]? = some "azeri" ∧
      (∃ s2, fkeys_click "layout_switch" s1 = .ok s2 ∧
        s2.me.element = some (english.map createLine)) ∧
      kthToggleLayout 1 s1.vars = some "english" ∧
      kthToggleLayout 2 s1.vars = some "russian" ∧
      kthToggleLayout 3 s1.vars = some "azeri" ∧
      (runCommands [.layout_switch, .layout_switch] s1).me.element
        = some (english.map createLine) ∧
      (runCommands [.layout_switch, .layout_switch, .layout_switch] s1).me.element
        = some (azeri.map createLine) := by
  have hv : s1.vars = ⟨false, false, L0, 0⟩ := by
    have h := createKeyboard_vars L0 ⟨{ vars with layout := L0 }, ⟨L0, input, element⟩⟩
    simp only [init] at hinit
    rw [hinit] at h
    simp only [after] at h
    rw [h, h0]
  obtain ⟨v1, m1⟩ := s1
  simp only at hv
  subst hv
  have hk : ∀ k : Nat, 1 ≤ k →
      kthToggleLayout k ⟨false, false, L0, 0⟩ = selectable[k % selectable.length]? :=
    fun k hk => kthToggleLayout_eq k _ hk rfl
  have c1 : Command.call .layout_switch ⟨⟨false, false, L0, 0⟩, m1⟩
      = .ok ⟨⟨false, false, L0, 1⟩, { m1 with element := some (english.map createLine) }⟩ :=
    rfl
  have c2 : ∀ m : Plugin, Command.call .layout_switch ⟨⟨false, false, L0, 1⟩, m⟩
      = .error ⟨⟨false, false, L0, 2⟩, m⟩ := fun _ => rfl
  have c3 : ∀ m : Plugin, Command.call .layout_switch ⟨⟨false, false, L0, 2⟩, m⟩
      = .ok ⟨⟨false, false, L0, 3⟩, { m with element := some (azeri.map createLine) }⟩ := by
    intro m
    have t1 : (toggleLayout ⟨false, false, L0, 2⟩).1 = some "azeri" := by
      rw [toggleLayout_name]
      show selectable[(2 + 1) % selectable.length]? = some "azeri"
      rfl
    have t2 : (toggleLayout ⟨false, false, L0, 2⟩).2 = ⟨false, false, L0, 3⟩ := rfl
    simp only [Command.call, t1, t2]
    rfl
  refine ⟨rfl, rfl, ⟨_, c1, rfl⟩, ?_, ?_, ?_, ?_, ?_⟩
  · rw [hk 1 (by decide)]
    rfl
  · rw [hk 2 (by decide)]
    rfl
  · rw [hk 3 (by decide)]
    rfl
  · simp only [runCommands, List.foldl, c1, c2, after]
  · simp only [runCommands, List.foldl, c1, c2, c3, after]

/-- C18 for a widget constructed with the default layout `"english"`: the first
`layout_switch` activation renders `"english"` again. -/
theorem first_layout_switch_renders_english_witness :
    ∃ s2, fkeys_click "layout_switch" (after (init (State.fresh "english" ⟨[], 0, 0⟩)))
        = .ok s2 ∧
      s2.me.element = some (english.map createLine) :=
  (first_layout_switch_renders_english "english" Vars.initial ⟨[], 0, 0⟩ none
    (after (init (State.fresh "english" ⟨[], 0, 0⟩))) rfl rfl).2.2.1

/-! ## The plugin wrapper -/

/-- C15: on a host element that holds an instance the wrapper, whatever its options,
constructs nothing and leaves the stored instance and the module-level variables
as they are; every completed call of the wrapper leaves such an element, so a second
call changes nothing. -/
theorem jkeyboard_idempotent (options options' : Options) (input input' : TextField)
    (vars vars' : Vars) (host host' : Host) (me : Plugin)
    (h : jkeyboard options input vars host = .ok (vars', host')) :
    jkeyboard options' input' vars (.bound me) = .ok (vars, .bound me) ∧
      (∃ me', host' = .bound me') ∧
      jkeyboard options' input' vars' host' = .ok (vars', host') := by
  have hb : ∃ me', host' = .bound me' := by
    cases host with
    | bound m =>
      simp only [jkeyboard, Except.ok.injEq, Prod.mk.injEq] at h
      exact ⟨m, h.2.symm⟩
    | bare content =>
      simp only [jkeyboard] at h
      split at h
      · next s hs =>
        simp only [Except.ok.injEq, Prod.mk.injEq] at h
        exact ⟨s.me, h.2.symm⟩
      · cases h
  refine ⟨rfl, hb, ?_⟩
  obtain ⟨m, hm⟩ := hb
  rw [hm]
  rfl

/-- C15 for a host constructed with the default options: a second call with the
layout `"azeri"` leaves the `english` instance and the variables unchanged. -/
theorem jkeyboard_idempotent_witness :
    jkeyboard ⟨some "azeri"⟩ ⟨"x".toList, 1, 1⟩ ⟨false, false, "english", 0⟩
        (.bound ⟨"english", ⟨[], 0, 0⟩, some (english.map createLine)⟩)
      = .ok (⟨false, false, "english", 0⟩,
        .bound ⟨"english", ⟨[], 0, 0⟩, some (english.map createLine)⟩) :=
  (jkeyboard_idempotent ⟨none⟩ ⟨some "azeri"⟩ ⟨[], 0, 0⟩ ⟨"x".toList, 1, 1⟩ Vars.initial
    ⟨false, false, "english", 0⟩ (.bare none)
    (.bound ⟨"english", ⟨[], 0, 0⟩, some (english.map createLine)⟩)
    ⟨"english", ⟨[], 0, 0⟩, none⟩ rfl).2.2

/-! ## Two instances on one page -/

/-- C14 fails on the code: the variables `shift`, `capslock`, `layout` and `layout_id`
are shared by all instances.  The construction of a second widget with `"azeri"`
makes `character_switch` of the first, constructed with `"english"`, render `azeri`;
a shift click or a double click on the second sets the modifiers the first types
with; a `layout_switch` of the second advances the cycler of the first. -/
theorem second_widget_changes_first :
    Page.one.vars.layout = "english" ∧ Page.two.vars.layout = "azeri" ∧
      (Page.one.onFirst (runCommands [.numeric_switch, .character_switch])).first.element
        = some (english.map createLine) ∧
      (Page.two.onFirst (runCommands [.numeric_switch, .character_switch])).first.element
        = some (azeri.map createLine) ∧
      Page.two.vars.shift = false ∧
      (Page.two.onSecond shift_key_click).vars.shift = true ∧
      ((Page.two.onSecond shift_key_click).onFirst
        (letters_click asciiUpper "a".toList)).first.input.value = "A".toList ∧
      Page.two.vars.capslock = false ∧
      (Page.two.onSecond shift_key_double_click).vars.capslock = true ∧
      Page.two.vars.layout_id = 0 ∧
      (Page.two.onSecond fun s => after (fkeys_click "layout_switch" s)).vars.layout_id
        = 1 := by
  decide

end JKeyboard
